import Mathlib

set_option autoImplicit false

/-!
Verification of the connman-resolvconf reconciliation engine.

The definitions below are a shallow embedding of the program's Rust sources:
`Service`, `ServiceUpdate` and the update decoder come from `src/connman.rs`;
the reconciliation operations (`ResolvconfState.insert`, `ResolvconfState.update`),
the generated resolv.conf content and the event-loop handler come from
`src/main.rs`; the helper-binary permission check and subprocess invocation
come from `src/resolvconf.rs`.  The `HashMap<String, Service>` of the source is
embedded as an association list with key lookup/replace/erase; the external
`resolvconf(8)` helper is embedded as a behaviour oracle together with an
explicit trace of the calls issued to it.
-/

/-- Embeds `struct Service` of `src/connman.rs` (lines 31-43). -/
structure Service where
  id : String
  state : String
  interface : Option String
  nameservers : List String
  domains : List String
deriving Repr, DecidableEq

/-- Embeds `enum ServiceUpdate` of `src/connman.rs` (lines 105-115). -/
inductive ServiceUpdate where
  | Domains (value : List String)
  | Nameservers (value : List String)
  | State (value : String)
  | Other
deriving Repr, DecidableEq

/-- Embeds `Service::interface_or_id` of `src/connman.rs` (lines 46-48). -/
def Service.interface_or_id (s : Service) : String :=
  s.interface.getD s.id

/-- Embeds `Service::update` of `src/connman.rs` (lines 50-65): merge a single
changed field in place, returning `true` exactly when the field actually
differed from the carried value. -/
def Service.update (s : Service) (change : ServiceUpdate) : Service × Bool :=
  match change with
  | .State value =>
      if s.state ≠ value then ({ s with state := value }, true) else (s, false)
  | .Domains value =>
      if s.domains ≠ value then ({ s with domains := value }, true) else (s, false)
  | .Nameservers value =>
      if s.nameservers ≠ value then ({ s with nameservers := value }, true) else (s, false)
  | .Other => (s, false)

/-- Modelled from the spec: the `PartialEq` implementation for `Service` that
`ResolvconfState::insert` relies on at `src/main.rs` line 51 (`*cur == service`)
is not present in the sources; §3 of the spec records the invariant it must
satisfy: two `Service` values are equal iff all four mutable fields (`state`,
`interface`, `nameservers`, `domains`) are equal. -/
def serviceEq (a b : Service) : Bool :=
  decide (a.state = b.state ∧ a.interface = b.interface ∧
    a.nameservers = b.nameservers ∧ a.domains = b.domains)

/-- Embeds `Service::resolvconf` of `src/main.rs` (lines 103-116): the text
block streamed to the helper in add mode. -/
def Service.resolvconf (s : Service) : String :=
  let buf := "# Generated for " ++ s.id ++ "\n"
  let buf :=
    if s.domains.isEmpty then buf
    else buf ++ "search " ++ String.intercalate " " s.domains ++ "\n"
  s.nameservers.foldl (fun buf nameserver => buf ++ "nameserver " ++ nameserver ++ "\n") buf

/-- Embedding of `HashMap<String, Service>` as an association list. -/
abbrev ServiceMap := List (String × Service)

/-- Lookup by key (`HashMap::get`). -/
def mapGet : ServiceMap → String → Option Service
  | [], _ => none
  | (k, v) :: rest, key => if k = key then some v else mapGet rest key

/-- Insert or replace by key (`HashMap::insert`). -/
def mapInsert : ServiceMap → String → Service → ServiceMap
  | [], key, v => [(key, v)]
  | (k, w) :: rest, key, v =>
      if k = key then (key, v) :: rest else (k, w) :: mapInsert rest key v

/-- Remove by key (`HashMap::remove`). -/
def mapErase : ServiceMap → String → ServiceMap
  | [], _ => []
  | (k, w) :: rest, key => if k = key then rest else (k, w) :: mapErase rest key

/-- A `HashMap` never holds two entries with the same key; association lists
representing one have pairwise distinct keys. -/
def mapWellFormed (m : ServiceMap) : Prop :=
  (m.map Prod.fst).Nodup

/-- One call issued to the external `resolvconf(8)` helper: `Resolvconf::add`
with the interface and the streamed content, or `Resolvconf::del` with the
interface. -/
inductive WCall where
  | add (iface : String) (content : String)
  | del (iface : String)
deriving Repr, DecidableEq

/-- Behaviour oracle for the external helper: whether each add/del invocation
succeeds.  The reconciliation engine only observes success or failure. -/
structure WriterBehavior where
  addOk : String → String → Bool
  delOk : String → Bool

/-- The helper behaviour in which every invocation succeeds. -/
def okWriter : WriterBehavior where
  addOk := fun _ _ => true
  delOk := fun _ => true

/-- Result of one reconciliation operation: `Ok(())` or a propagated error. -/
inductive OpResult where
  | ok
  | err
deriving Repr, DecidableEq

/-- Outcome of one reconciliation operation: the map afterwards, the helper
calls issued (in order), and the returned result. -/
structure OpOutcome where
  map : ServiceMap
  calls : List WCall
  result : OpResult
deriving Repr, DecidableEq

/-- Whether the map already tracks `service.id` with a field-for-field equal
value — the guard of the no-op branch at `src/main.rs` line 51. -/
def trackedEq (m : ServiceMap) (service : Service) : Bool :=
  match mapGet m service.id with
  | some cur => serviceEq cur service
  | none => false

/-- Embeds `ResolvconfState::insert` of `src/main.rs` (lines 49-63), the
`observe_snapshot` operation: no-op when an equal entry exists; otherwise call
the helper's add when `nameservers` is non-empty (an add failure returns early,
before the map insertion); finally upsert the entry. -/
def ResolvconfState.insert (w : WriterBehavior) (m : ServiceMap) (service : Service) :
    OpOutcome :=
  if trackedEq m service then ⟨m, [], .ok⟩
  else if service.nameservers.isEmpty then ⟨mapInsert m service.id service, [], .ok⟩
  else
    let iface := service.interface_or_id
    let content := service.resolvconf
    if w.addOk iface content then ⟨mapInsert m service.id service, [.add iface content], .ok⟩
    else ⟨m, [.add iface content], .err⟩

/-- Embeds `ResolvconfState::update` of `src/main.rs` (lines 65-89), the
`apply_update` operation: unknown ids are ignored; otherwise the entry is
mutated in place by `Service::update` and, only when a field actually changed,
the entry's current state is branched on: `ready`/`online` re-publish via add,
`disconnect` calls del then removes the entry, `configuration` is ignored, and
any other state is an error (`bail!`). -/
def ResolvconfState.update (w : WriterBehavior) (m : ServiceMap) (id : String)
    (change : ServiceUpdate) : OpOutcome :=
  match mapGet m id with
  | none => ⟨m, [], .ok⟩
  | some found =>
    let su := Service.update found change
    let service := su.1
    let m1 := mapInsert m id service
    if su.2 then
      let iface := service.interface_or_id
      if service.state = "ready" ∨ service.state = "online" then
        let content := service.resolvconf
        if w.addOk iface content then ⟨m1, [.add iface content], .ok⟩
        else ⟨m1, [.add iface content], .err⟩
      else if service.state = "disconnect" then
        if w.delOk iface then ⟨mapErase m1 id, [.del iface], .ok⟩
        else ⟨m1, [.del iface], .err⟩
      else if service.state = "configuration" then ⟨m1, [], .ok⟩
      else ⟨m1, [], .err⟩
    else ⟨m1, [], .ok⟩

/-- One reconciliation-engine operation, for reasoning about sequences. -/
inductive EngineOp where
  | snapshot (service : Service)
  | applyUpd (id : String) (change : ServiceUpdate)
deriving Repr, DecidableEq

/-- Run a sequence of engine operations from a map, collecting every helper
call issued along the way (errors are logged and do not stop the event loop,
per `src/main.rs` lines 199-209). -/
def runOps (w : WriterBehavior) (m : ServiceMap) : List EngineOp → ServiceMap × List WCall
  | [] => (m, [])
  | op :: rest =>
    let o := match op with
      | .snapshot service => ResolvconfState.insert w m service
      | .applyUpd id change => ResolvconfState.update w m id change
    let r := runOps w o.map rest
    (r.1, o.calls ++ r.2)

/-- Number of add calls in a helper-call trace. -/
def countAdds (calls : List WCall) : Nat :=
  calls.countP fun c => match c with | .add _ _ => true | .del _ => false

/-- Observable steps taken by the event-loop notification handler of
`src/main.rs` (lines 194-211): a full fetch via `Services::get`, a delegation
to `ResolvconfState::insert`, or a delegation to `ResolvconfState::update`. -/
inductive EvAct where
  | getService (id : String)
  | insertCall
  | updateCall
deriving Repr, DecidableEq

/-- Outcome of handling one notification: the map afterwards, the helper calls
issued, and the handler steps taken. -/
structure HandlerOutcome where
  map : ServiceMap
  calls : List WCall
  acts : List EvAct
deriving Repr, DecidableEq

/-- Embeds the closure passed to `Services::on_update` in `run`
(`src/main.rs` lines 194-211): a `State` update whose value is `ready` or
`online` triggers `services.get(id)` followed by `insert` of the fetched
service (`fetch` is the result of that `get`; on its failure the error is
logged and nothing else happens); every other update is delegated to
`update`.  Errors of `insert`/`update` are logged, not propagated. -/
def handleUpdate (w : WriterBehavior) (fetch : Option Service) (m : ServiceMap)
    (id : String) (update : ServiceUpdate) : HandlerOutcome :=
  match update with
  | .State state =>
    if state = "ready" ∨ state = "online" then
      match fetch with
      | some service =>
        let o := ResolvconfState.insert w m service
        ⟨o.map, o.calls, [.getService id, .insertCall]⟩
      | none => ⟨m, [], [.getService id]⟩
    else
      let o := ResolvconfState.update w m id (.State state)
      ⟨o.map, o.calls, [.updateCall]⟩
  | u =>
    let o := ResolvconfState.update w m id u
    ⟨o.map, o.calls, [.updateCall]⟩

/-- Embeds the dispatch of one decoded notification, including the early
return for `ServiceUpdate::Other` inside `Services::on_update`
(`src/connman.rs` lines 188-191), which drops such updates before the
`run` closure is invoked. -/
def handleNotification (w : WriterBehavior) (fetch : Option Service) (m : ServiceMap)
    (id : String) (update : ServiceUpdate) : HandlerOutcome :=
  match update with
  | .Other => ⟨m, [], []⟩
  | u => handleUpdate w fetch m id u

/-- Whether an update is a `State` change to `ready` or `online` — the guard
of the full-fetch branch at `src/main.rs` line 197. -/
def activating : ServiceUpdate → Bool
  | .State state => state = "ready" || state = "online"
  | _ => false

/-- File metadata observed by `fs::metadata` in `check_permissions`
(`src/resolvconf.rs` lines 74-97): the permission mode bits and the owner's
uid. -/
structure FileMeta where
  mode : Nat
  uid : Nat
deriving Repr, DecidableEq

/-- Errors of the embedded `Resolvconf` component: the two `bail!` cases of
`check_permissions` and a non-zero helper exit status. -/
inductive RcError where
  | writableByOthers
  | notOwned
  | exitFailure
deriving Repr, DecidableEq

/-- Embeds `check_permissions` of `src/resolvconf.rs` (lines 74-97): reject a
helper binary that is group- or world-writable, or owned by neither root nor
the current user. -/
def check_permissions (meta : FileMeta) (currentUid : Nat) : Except RcError Unit :=
  if meta.mode &&& 0o020 ≠ 0 ∨ meta.mode &&& 0o002 ≠ 0 then .error .writableByOthers
  else if ¬ meta.uid = 0 ∧ ¬ meta.uid = currentUid then .error .notOwned
  else .ok ()

/-- One subprocess actually spawned: the helper in add mode (with the content
streamed to its stdin) or in delete mode. -/
inductive ProcAction where
  | spawnAdd (iface : String) (stdinContent : String)
  | spawnDel (iface : String)
deriving Repr, DecidableEq

/-- Embeds `Resolvconf::add` of `src/resolvconf.rs` (lines 27-53):
`check_permissions` runs first and a violation returns before any subprocess
is spawned; otherwise the helper is spawned in add mode and a non-zero exit
status (`exitOk = false`) is an error.  `meta` is the metadata `fs::metadata`
reads at this call. -/
def Resolvconf.add (meta : FileMeta) (currentUid : Nat) (exitOk : Bool)
    (iface : String) (content : String) : Except RcError Unit × List ProcAction :=
  match check_permissions meta currentUid with
  | .error e => (.error e, [])
  | .ok _ =>
    if exitOk then (.ok (), [.spawnAdd iface content])
    else (.error .exitFailure, [.spawnAdd iface content])

/-- Embeds `Resolvconf::del` of `src/resolvconf.rs` (lines 56-71), analogous
to `Resolvconf.add` but in delete mode with no stdin content. -/
def Resolvconf.del (meta : FileMeta) (currentUid : Nat) (exitOk : Bool)
    (iface : String) : Except RcError Unit × List ProcAction :=
  match check_permissions meta currentUid with
  | .error e => (.error e, [])
  | .ok _ =>
    if exitOk then (.ok (), [.spawnDel iface])
    else (.error .exitFailure, [.spawnDel iface])

/-- One invocation of the `Resolvconf` component, carrying the file metadata
the filesystem reports at the moment of that call (the binary's permissions
may change between calls, and `check_permissions` re-reads them each time). -/
inductive RcCall where
  | addCall (meta : FileMeta) (exitOk : Bool) (iface : String) (content : String)
  | delCall (meta : FileMeta) (exitOk : Bool) (iface : String)
deriving Repr, DecidableEq

/-- Dispatch one `RcCall` to the corresponding `Resolvconf` function. -/
def runRcCall (currentUid : Nat) : RcCall → Except RcError Unit × List ProcAction
  | .addCall meta exitOk iface content => Resolvconf.add meta currentUid exitOk iface content
  | .delCall meta exitOk iface => Resolvconf.del meta currentUid exitOk iface

/-- Run a sequence of `Resolvconf` invocations.  The `Resolvconf` struct of
the source holds only the helper path and no mutable state, so each call's
outcome depends only on that call's own inputs. -/
def runRcCalls (currentUid : Nat) (calls : List RcCall) :
    List (Except RcError Unit × List ProcAction) :=
  calls.map (runRcCall currentUid)

/-- A file metadata violating the safety precondition: group- or
world-writable, or owned by neither root nor the current user. -/
def metaViolates (meta : FileMeta) (currentUid : Nat) : Prop :=
  meta.mode &&& 0o020 ≠ 0 ∨ meta.mode &&& 0o002 ≠ 0 ∨
    (¬ meta.uid = 0 ∧ ¬ meta.uid = currentUid)

/-- Shape of the raw value carried by a `PropertyChanged` notification, as
seen by the typed reads of `ServiceUpdate::read`: a variant holding a string,
a variant holding a string sequence, or anything else. -/
inductive RawValue where
  | vString (s : String)
  | vStringList (xs : List String)
  | vOther
deriving Repr, DecidableEq

/-- Embeds `ServiceUpdate::read` of `src/connman.rs` (lines 117-132): the
known property names require a value of the matching variant shape (a
mismatch is a `TypeMismatchError`); any other property name decodes to
`Other` without looking at the value. -/
def ServiceUpdate.read (name : String) (value : RawValue) : Except Unit ServiceUpdate :=
  match name with
  | "Domains" =>
    match value with
    | .vStringList xs => .ok (.Domains xs)
    | _ => .error ()
  | "Nameservers" =>
    match value with
    | .vStringList xs => .ok (.Nameservers xs)
    | _ => .error ()
  | "State" =>
    match value with
    | .vString s => .ok (.State s)
    | _ => .error ()
  | _ => .ok .Other

/-- Modelled from the spec: the bus dispatch layer that invokes the decoder
(the `dbus` crate's `add_match` machinery, outside this repository) drops the
one message whose decode fails and continues with the rest (§4.2: "the caller
drops the one message (does not crash the process)"). -/
def processMessages : List (String × RawValue) → List ServiceUpdate
  | [] => []
  | (name, value) :: rest =>
    match ServiceUpdate.read name value with
    | .ok u => u :: processMessages rest
    | .error _ => processMessages rest

/-- Stated from the spec, for comparison with `Service.resolvconf`: one
`nameserver` line per address, in the given order. -/
def specNameserverLines : List String → String
  | [] => ""
  | n :: rest => "nameserver " ++ n ++ "\n" ++ specNameserverLines rest

/-- Stated from the spec, for comparison with `Service.resolvconf`: a header
comment naming the service id, an optional space-joined search line omitted
when `domains` is empty, and one nameserver line per address in order. -/
def specContent (s : Service) : String :=
  "# Generated for " ++ s.id ++ "\n" ++
    (if s.domains = [] then "" else "search " ++ String.intercalate " " s.domains ++ "\n") ++
    specNameserverLines s.nameservers

/-- The field targeted by an update already equals the update's carried value
(trivial for `Other`, which carries no field). -/
def targetUnchanged (s : Service) : ServiceUpdate → Prop
  | .State value => s.state = value
  | .Domains value => s.domains = value
  | .Nameservers value => s.nameservers = value
  | .Other => True

/-- A concrete active service with one nameserver, for concrete instances. -/
def svcA : Service :=
  { id := "a", state := "ready", interface := none,
    nameservers := ["1.1.1.1"], domains := [] }

/-- A concrete active service with no nameservers, for concrete instances. -/
def svcEmpty : Service :=
  { id := "s", state := "ready", interface := none,
    nameservers := [], domains := [] }

/-- A concrete tracked service already in state `disconnect`. -/
def svcDisc : Service :=
  { id := "a", state := "disconnect", interface := none,
    nameservers := [], domains := [] }

/-- The helper behaviour in which every add invocation fails. -/
def failWriter : WriterBehavior where
  addOk := fun _ _ => false
  delOk := fun _ => true

/-! Supporting lemmas about the map embedding and the service operations. -/

theorem serviceEq_refl (s : Service) : serviceEq s s = true := by
  simp [serviceEq]

theorem serviceEq_true_iff (a b : Service) :
    serviceEq a b = true ↔
      (a.state = b.state ∧ a.interface = b.interface ∧
        a.nameservers = b.nameservers ∧ a.domains = b.domains) := by
  simp [serviceEq]

theorem mapGet_insert_self (m : ServiceMap) (k : String) (v : Service) :
    mapGet (mapInsert m k v) k = some v := by
  induction m with
  | nil => simp [mapInsert, mapGet]
  | cons hd tl ih =>
    obtain ⟨k1, v1⟩ := hd
    by_cases h : k1 = k
    · simp [mapInsert, h, mapGet]
    · simp [mapInsert, h, mapGet, ih]

theorem mapGet_insert_ne (m : ServiceMap) (k k1 : String) (v : Service) (h : ¬ k1 = k) :
    mapGet (mapInsert m k v) k1 = mapGet m k1 := by
  induction m with
  | nil => simp [mapInsert, mapGet, Ne.symm h]
  | cons hd tl ih =>
    obtain ⟨k2, v2⟩ := hd
    by_cases h2 : k2 = k
    · subst h2
      simp [mapInsert, mapGet, Ne.symm h]
    · simp [mapInsert, h2, mapGet, ih]

theorem mapInsert_cancel (m : ServiceMap) (k : String) (v : Service)
    (h : mapGet m k = some v) : mapInsert m k v = m := by
  induction m with
  | nil => simp [mapGet] at h
  | cons hd tl ih =>
    obtain ⟨k1, v1⟩ := hd
    by_cases h1 : k1 = k
    · subst h1
      simp [mapGet] at h
      simp [mapInsert, h]
    · simp [mapGet, h1] at h
      simp [mapInsert, h1, ih h]

theorem mapGet_none_of_not_mem (m : ServiceMap) (k : String)
    (h : k ∉ m.map Prod.fst) : mapGet m k = none := by
  induction m with
  | nil => simp [mapGet]
  | cons hd tl ih =>
    obtain ⟨k1, v1⟩ := hd
    simp only [List.map_cons, List.mem_cons, not_or] at h
    simp [mapGet, Ne.symm h.1, ih h.2]

theorem mapGet_erase_ne (m : ServiceMap) (k k1 : String) (h : ¬ k1 = k) :
    mapGet (mapErase m k) k1 = mapGet m k1 := by
  induction m with
  | nil => simp [mapErase]
  | cons hd tl ih =>
    obtain ⟨k2, v2⟩ := hd
    by_cases h2 : k2 = k
    · subst h2
      simp [mapErase, mapGet, Ne.symm h]
    · simp [mapErase, h2, mapGet, ih]

theorem mapGet_erase_insert (m : ServiceMap) (k : String) (v : Service)
    (hwf : mapWellFormed m) : mapGet (mapErase (mapInsert m k v) k) k = none := by
  induction m with
  | nil => simp [mapInsert, mapErase, mapGet]
  | cons hd tl ih =>
    obtain ⟨k1, v1⟩ := hd
    simp only [mapWellFormed, List.map_cons, List.nodup_cons] at hwf
    by_cases h1 : k1 = k
    · subst h1
      simp only [mapInsert, if_pos rfl, mapErase, if_pos rfl]
      exact mapGet_none_of_not_mem tl k1 hwf.1
    · simp only [mapInsert, if_neg h1, mapErase, if_neg h1, mapGet, if_neg (Ne.symm h1)]
      exact ih hwf.2

theorem Service.update_unchanged (s : Service) (u : ServiceUpdate)
    (h : targetUnchanged s u) : Service.update s u = (s, false) := by
  cases u <;> simp [targetUnchanged] at h <;> simp [Service.update, h]

theorem trackedEq_after_insert (m : ServiceMap) (s : Service) :
    trackedEq (mapInsert m s.id s) s = true := by
  unfold trackedEq
  rw [mapGet_insert_self]
  exact serviceEq_refl s

theorem resolvconf_foldl (l : List String) (b : String) :
    l.foldl (fun buf n => buf ++ "nameserver " ++ n ++ "\n") b =
      b ++ specNameserverLines l := by
  induction l generalizing b with
  | nil => simp [specNameserverLines]
  | cons x xs ih =>
    rw [List.foldl_cons, ih, specNameserverLines]
    simp [String.append_assoc]

/-- Claim C2: for every tracked service id and every update whose targeted
field already equals the update's carried value, `ResolvconfState.update`
issues no Configuration Writer call and leaves the known map (every entry,
every field) unchanged. -/
theorem C2_update_noop (w : WriterBehavior) (m : ServiceMap) (id : String)
    (u : ServiceUpdate) (s : Service)
    (hs : mapGet m id = some s) (hu : targetUnchanged s u) :
    ResolvconfState.update w m id u = ⟨m, [], OpResult.ok⟩ := by
  unfold ResolvconfState.update
  rw [hs]
  simp only [Service.update_unchanged s u hu]
  simp [mapInsert_cancel m id s hs]

/-- Witness for C2 at a concrete tracked service and a redundant state update. -/
theorem C2_update_noop_witness :
    mapGet [("a", svcA)] "a" = some svcA ∧
    targetUnchanged svcA (ServiceUpdate.State "ready") ∧
    ResolvconfState.update okWriter [("a", svcA)] "a" (ServiceUpdate.State "ready") =
      ⟨[("a", svcA)], [], OpResult.ok⟩ :=
  ⟨rfl, rfl,
    C2_update_noop okWriter [("a", svcA)] "a" (ServiceUpdate.State "ready") svcA rfl rfl⟩

def svcEth0 (st : String) (iface : Option String) : Service :=
  { id := "eth0", state := st, interface := iface,
    nameservers := ["10.0.0.1", "10.0.0.2"], domains := ["corp.example"] }

/-- Claim C6: for every `Service` with id `eth0`, domains `[corp.example]`
and nameservers `[10.0.0.1, 10.0.0.2]` (any state and interface), the
generated configuration content is exactly the four expected lines in order;
in general the content is a header comment naming the service id, an optional
space-joined search line omitted when domains is empty, and one nameserver
line per address in the given order. -/
theorem C6_resolvconf_content :
    (∀ (st : String) (iface : Option String),
      Service.resolvconf (svcEth0 st iface) =
        "# Generated for eth0\nsearch corp.example\nnameserver 10.0.0.1\nnameserver 10.0.0.2\n") ∧
    (∀ s : Service, Service.resolvconf s = specContent s) := by
  constructor
  · intro st iface
    rfl
  · intro s
    unfold Service.resolvconf specContent
    rw [resolvconf_foldl]
    by_cases h : s.domains = []
    · simp [h]
    · simp [h, String.append_assoc]
      rw [show ("\nsearch " : String) = "\n" ++ "search " from rfl,
        String.append_assoc "\n" "search "]

/-- Claim C9: two `Service` values are equal iff all four mutable fields
(`state`, `interface`, `nameservers`, `domains`) are pairwise equal; in
particular two values whose four mutable fields agree are equal even with
different `id` fields, and this equality is exactly what
`ResolvconfState.insert` uses to suppress no-op writes. -/
theorem C9_service_equality :
    (∀ a b : Service, serviceEq a b = true ↔
      (a.state = b.state ∧ a.interface = b.interface ∧
        a.nameservers = b.nameservers ∧ a.domains = b.domains)) ∧
    (∃ a b : Service, ¬ a.id = b.id ∧ serviceEq a b = true) ∧
    (∀ (w : WriterBehavior) (m : ServiceMap) (s cur : Service),
      mapGet m s.id = some cur → serviceEq cur s = true →
      ResolvconfState.insert w m s = ⟨m, [], OpResult.ok⟩) := by
  refine ⟨serviceEq_true_iff,
    ⟨⟨"x", "ready", none, [], []⟩, ⟨"y", "ready", none, [], []⟩, by decide, by decide⟩, ?_⟩
  intro w m s cur hget heq
  unfold ResolvconfState.insert trackedEq
  rw [hget]
  simp [heq]

/-- Witness for C9's suppression conjunct at a concrete map and service. -/
theorem C9_service_equality_witness :
    mapGet [("a", svcA)] svcA.id = some svcA ∧ serviceEq svcA svcA = true ∧
    ResolvconfState.insert okWriter [("a", svcA)] svcA = ⟨[("a", svcA)], [], OpResult.ok⟩ :=
  ⟨rfl, by decide,
    C9_service_equality.2.2 okWriter [("a", svcA)] svcA svcA rfl (by decide)⟩

/-- Claim C10: when the Configuration Writer's add fails during
`ResolvconfState.insert` of a service with non-empty nameservers that is not
already tracked with equal fields, the error propagates and the known map is
left exactly as it was: the entry is not inserted and nothing is modified. -/
theorem C10_insert_add_failure (w : WriterBehavior) (m : ServiceMap) (s : Service)
    (hn : ¬ s.nameservers = []) (ht : trackedEq m s = false)
    (hfail : w.addOk s.interface_or_id s.resolvconf = false) :
    ResolvconfState.insert w m s =
      ⟨m, [WCall.add s.interface_or_id s.resolvconf], OpResult.err⟩ := by
  unfold ResolvconfState.insert
  rw [ht]
  simp [List.isEmpty_eq_false.mpr hn, hfail]

/-- Witness for C10 with an always-failing writer on an empty map. -/
theorem C10_insert_add_failure_witness :
    ¬ svcA.nameservers = [] ∧ trackedEq [] svcA = false ∧
    failWriter.addOk svcA.interface_or_id svcA.resolvconf = false ∧
    ResolvconfState.insert failWriter [] svcA =
      ⟨[], [WCall.add svcA.interface_or_id svcA.resolvconf], OpResult.err⟩ :=
  ⟨by decide, rfl, rfl, C10_insert_add_failure failWriter [] svcA (by decide) rfl rfl⟩

/-- Re-applying `ResolvconfState.insert` with the same service right after a
first application is a no-op (all helper invocations succeeding). -/
theorem insert_self_noop (m : ServiceMap) (s : Service) :
    ResolvconfState.insert okWriter (ResolvconfState.insert okWriter m s).map s =
      ⟨(ResolvconfState.insert okWriter m s).map, [], OpResult.ok⟩ := by
  by_cases ht : trackedEq m s = true
  · unfold ResolvconfState.insert
    rw [ht]
    simp [ht]
  · have h2 : (ResolvconfState.insert okWriter m s).map = mapInsert m s.id s := by
      unfold ResolvconfState.insert
      rw [Bool.not_eq_true] at ht
      rw [ht]
      by_cases hn : s.nameservers.isEmpty <;> simp [hn, okWriter]
    rw [h2]
    unfold ResolvconfState.insert
    rw [trackedEq_after_insert]
    simp

/-- Claim C1 (amended): applying `ResolvconfState.insert` twice consecutively
with the identical service issues exactly one add in total when the service
has nameservers and is not already tracked field-for-field equal, and zero
adds otherwise (in particular zero when `nameservers` is empty); the second
application is a no-op issuing no call and leaving the known map unchanged. -/
theorem C1_insert_idempotent (m : ServiceMap) (s : Service) :
    countAdds ((ResolvconfState.insert okWriter m s).calls ++
        (ResolvconfState.insert okWriter (ResolvconfState.insert okWriter m s).map s).calls) =
      (if ¬ s.nameservers = [] ∧ trackedEq m s = false then 1 else 0) ∧
    (ResolvconfState.insert okWriter (ResolvconfState.insert okWriter m s).map s).calls = [] ∧
    (ResolvconfState.insert okWriter (ResolvconfState.insert okWriter m s).map s).map =
      (ResolvconfState.insert okWriter m s).map := by
  rw [insert_self_noop m s]
  refine ⟨?_, rfl, rfl⟩
  by_cases ht : trackedEq m s = true
  · have h1 : (ResolvconfState.insert okWriter m s).calls = [] := by
      unfold ResolvconfState.insert
      rw [ht]
      simp [ht]
    rw [h1]
    simp [countAdds, ht]
  · rw [Bool.not_eq_true] at ht
    by_cases hn : s.nameservers = []
    · have h1 : (ResolvconfState.insert okWriter m s).calls = [] := by
        unfold ResolvconfState.insert
        rw [ht]
        simp [List.isEmpty_iff.mpr hn]
      rw [h1]
      simp [countAdds, hn]
    · have h1 : (ResolvconfState.insert okWriter m s).calls =
          [WCall.add s.interface_or_id s.resolvconf] := by
        unfold ResolvconfState.insert
        rw [ht]
        simp [List.isEmpty_eq_false.mpr hn, okWriter]
      rw [h1]
      simp [countAdds, hn, ht]

/-- Counterexample to C1 as stated: for a reconciliation state that already
tracks the service field-for-field equal, two consecutive applications issue
zero adds in total although the service's nameservers are non-empty, not
exactly one. -/
theorem C1_counterexample :
    ¬ svcA.nameservers = [] ∧
    countAdds ((ResolvconfState.insert okWriter [("a", svcA)] svcA).calls ++
        (ResolvconfState.insert okWriter
          (ResolvconfState.insert okWriter [("a", svcA)] svcA).map svcA).calls) = 0 := by
  decide

/-- Claim C3 (amended): `ResolvconfState.insert` of a service whose
nameservers list is empty never calls the Configuration Writer's add, and the
service is tracked afterwards.  (`ResolvconfState.update`, by contrast, does
call add for such a tracked service when a field genuinely changes while its
state is ready or online — see the counterexample.) -/
theorem C3_snapshot_empty_ns (w : WriterBehavior) (m : ServiceMap) (s : Service)
    (h : s.nameservers = []) :
    (ResolvconfState.insert w m s).calls = [] ∧
    (mapGet (ResolvconfState.insert w m s).map s.id).isSome = true := by
  by_cases ht : trackedEq m s = true
  · have h1 : ResolvconfState.insert w m s = ⟨m, [], OpResult.ok⟩ := by
      unfold ResolvconfState.insert
      rw [ht]
      simp [ht]
    rw [h1]
    refine ⟨rfl, ?_⟩
    unfold trackedEq at ht
    cases hg : mapGet m s.id with
    | none => rw [hg] at ht; simp at ht
    | some cur => simp
  · have h1 : ResolvconfState.insert w m s =
        ⟨mapInsert m s.id s, [], OpResult.ok⟩ := by
      unfold ResolvconfState.insert
      rw [Bool.not_eq_true] at ht
      rw [ht]
      simp [List.isEmpty_iff.mpr h]
    rw [h1]
    simp [mapGet_insert_self]

/-- Witness for C3 (amended) at a concrete empty-nameservers service. -/
theorem C3_snapshot_empty_ns_witness :
    svcEmpty.nameservers = [] ∧
    (ResolvconfState.insert okWriter [] svcEmpty).calls = [] ∧
    (mapGet (ResolvconfState.insert okWriter [] svcEmpty).map svcEmpty.id).isSome = true :=
  ⟨rfl, C3_snapshot_empty_ns okWriter [] svcEmpty rfl⟩

/-- Counterexample to C3 as stated: a tracked service with empty nameservers
in state ready receives a `Domains` update through `apply_update` and the
engine calls add (with a content block containing no nameserver lines). -/
theorem C3_counterexample :
    svcEmpty.nameservers = [] ∧
    (runOps okWriter [] [EngineOp.snapshot svcEmpty,
        EngineOp.applyUpd "s" (ServiceUpdate.Domains ["a"])]).2 =
      [WCall.add "s" "# Generated for s\nsearch a\n"] := by
  decide

/-- Claim C4 (amended): for every well-formed map and tracked service whose
current state is not already `disconnect`, a `State disconnect` update calls
the Configuration Writer's remove exactly once, succeeds, and deletes exactly
that entry from the known map; a later duplicate disconnect update for the
same now-untracked id returns success without any call and without modifying
the map. -/
theorem C4_disconnect (m : ServiceMap) (id : String) (s : Service)
    (hwf : mapWellFormed m) (hs : mapGet m id = some s) (hne : ¬ s.state = "disconnect") :
    (ResolvconfState.update okWriter m id (ServiceUpdate.State "disconnect")).calls =
        [WCall.del s.interface_or_id] ∧
    (ResolvconfState.update okWriter m id (ServiceUpdate.State "disconnect")).result =
        OpResult.ok ∧
    mapGet (ResolvconfState.update okWriter m id (ServiceUpdate.State "disconnect")).map id =
        none ∧
    (∀ k, ¬ k = id →
      mapGet (ResolvconfState.update okWriter m id (ServiceUpdate.State "disconnect")).map k =
        mapGet m k) ∧
    ResolvconfState.update okWriter
        (ResolvconfState.update okWriter m id (ServiceUpdate.State "disconnect")).map id
        (ServiceUpdate.State "disconnect") =
      ⟨(ResolvconfState.update okWriter m id (ServiceUpdate.State "disconnect")).map, [],
        OpResult.ok⟩ := by
  have ho : ResolvconfState.update okWriter m id (ServiceUpdate.State "disconnect") =
      ⟨mapErase (mapInsert m id { s with state := "disconnect" }) id,
        [WCall.del s.interface_or_id], OpResult.ok⟩ := by
    unfold ResolvconfState.update
    rw [hs]
    simp only [Service.update, ne_eq, hne, not_false_eq_true, if_true, if_pos]
    simp [Service.interface_or_id, okWriter]
  rw [ho]
  have hnone : mapGet (mapErase (mapInsert m id { s with state := "disconnect" }) id) id =
      none := mapGet_erase_insert m id _ hwf
  refine ⟨rfl, rfl, hnone, ?_, ?_⟩
  · intro k hk
    rw [mapGet_erase_ne _ _ _ hk, mapGet_insert_ne _ _ _ _ hk]
  · unfold ResolvconfState.update
    rw [hnone]

/-- Witness for C4 (amended) at a concrete tracked ready service. -/
theorem C4_disconnect_witness :
    mapWellFormed [("a", svcA)] ∧ mapGet [("a", svcA)] "a" = some svcA ∧
    ¬ svcA.state = "disconnect" ∧
    (ResolvconfState.update okWriter [("a", svcA)] "a" (ServiceUpdate.State "disconnect")).calls =
      [WCall.del svcA.interface_or_id] :=
  ⟨by simp [mapWellFormed], rfl, by decide,
    (C4_disconnect [("a", svcA)] "a" svcA (by simp [mapWellFormed]) rfl (by decide)).1⟩

/-- Counterexample to C4 as stated: for a tracked service whose state is
already `disconnect`, a `State disconnect` update is a no-op — the remove is
not called and the entry is not deleted. -/
theorem C4_counterexample :
    mapGet [("a", svcDisc)] "a" = some svcDisc ∧
    ResolvconfState.update okWriter [("a", svcDisc)] "a" (ServiceUpdate.State "disconnect") =
      ⟨[("a", svcDisc)], [], OpResult.ok⟩ := by
  decide

/-- Counterexample to C5 as stated: for a `State ready` notification about an
id that IS currently tracked, the handler still calls `Services::get` and
feeds the result into `ResolvconfState.insert` instead of feeding the update
into `ResolvconfState.update`. -/
theorem C5_counterexample :
    mapGet [("a", svcA)] "a" = some svcA ∧
    (handleNotification okWriter (some svcA) [("a", svcA)] "a"
        (ServiceUpdate.State "ready")).acts = [EvAct.getService "a", EvAct.insertCall] := by
  decide

/-- Claim C5 (amended): the event-loop handler calls `get(id)` and feeds the
fetched service into `ResolvconfState.insert` if and only if the decoded
update is `State` with value ready or online — regardless of whether the id
is tracked; every other decoded update (other than `Other`, which the bus
layer drops before the handler) is fed into `ResolvconfState.update`. -/
theorem C5_dispatch (w : WriterBehavior) (fetch : Option Service) (m : ServiceMap)
    (id : String) (u : ServiceUpdate) (hu : ¬ u = ServiceUpdate.Other) :
    ((EvAct.getService id ∈ (handleNotification w fetch m id u).acts) ↔ activating u = true) ∧
    ((EvAct.updateCall ∈ (handleNotification w fetch m id u).acts) ↔ activating u = false) ∧
    (∀ s, fetch = some s → activating u = true →
      (handleNotification w fetch m id u).map = (ResolvconfState.insert w m s).map ∧
      (handleNotification w fetch m id u).calls = (ResolvconfState.insert w m s).calls) ∧
    (activating u = false →
      (handleNotification w fetch m id u).map = (ResolvconfState.update w m id u).map ∧
      (handleNotification w fetch m id u).calls = (ResolvconfState.update w m id u).calls) := by
  cases u with
  | Other => exact absurd rfl hu
  | State st =>
    by_cases h : st = "ready" ∨ st = "online"
    · have ha : activating (ServiceUpdate.State st) = true := by
        simp [activating]
        rcases h with h | h
        · exact Or.inl h
        · exact Or.inr h
      cases fetch with
      | some s =>
        simp [handleNotification, handleUpdate, h, ha]
      | none =>
        simp [handleNotification, handleUpdate, h, ha]
    · have ha : activating (ServiceUpdate.State st) = false := by
        simp [activating]
        constructor
        · intro hh; exact h (Or.inl hh)
        · intro hh; exact h (Or.inr hh)
      simp [handleNotification, handleUpdate, h, ha]
  | Domains v =>
    simp [handleNotification, handleUpdate, activating]
  | Nameservers v =>
    simp [handleNotification, handleUpdate, activating]

/-- Witness for C5 (amended) at a concrete ready-state notification. -/
theorem C5_dispatch_witness :
    (EvAct.getService "a" ∈
        (handleNotification okWriter (some svcA) [] "a" (ServiceUpdate.State "ready")).acts) ↔
      activating (ServiceUpdate.State "ready") = true :=
  (C5_dispatch okWriter (some svcA) [] "a" (ServiceUpdate.State "ready") (by decide)).1

/-- Claim C7: for every add and del invocation, the helper-binary permission
check runs before any subprocess is spawned: a binary that is group- or
world-writable, or owned by neither root nor the invoking user, makes the
call fail with a permission error (not an exit-status error) and no
subprocess action occurs; and each call in any sequence is checked against
its own freshly read metadata, independent of surrounding calls. -/
theorem C7_permission_check (meta : FileMeta) (currentUid : Nat)
    (h : metaViolates meta currentUid) :
    (∀ (exitOk : Bool) (iface content : String),
      ∃ e, ¬ e = RcError.exitFailure ∧
        Resolvconf.add meta currentUid exitOk iface content = (Except.error e, [])) ∧
    (∀ (exitOk : Bool) (iface : String),
      ∃ e, ¬ e = RcError.exitFailure ∧
        Resolvconf.del meta currentUid exitOk iface = (Except.error e, [])) ∧
    (∀ (pre post : List RcCall) (c : RcCall),
      runRcCalls currentUid (pre ++ c :: post) =
        runRcCalls currentUid pre ++ runRcCall currentUid c :: runRcCalls currentUid post) := by
  have hcp : ∃ e, ¬ e = RcError.exitFailure ∧
      check_permissions meta currentUid = Except.error e := by
    unfold metaViolates at h
    unfold check_permissions
    rcases h with h | h | h
    · exact ⟨RcError.writableByOthers, by decide, by rw [if_pos (Or.inl h)]⟩
    · exact ⟨RcError.writableByOthers, by decide, by rw [if_pos (Or.inr h)]⟩
    · by_cases hw : meta.mode &&& 0o020 ≠ 0 ∨ meta.mode &&& 0o002 ≠ 0
      · exact ⟨RcError.writableByOthers, by decide, by rw [if_pos hw]⟩
      · exact ⟨RcError.notOwned, by decide, by rw [if_neg hw, if_pos h]⟩
  obtain ⟨e, he, hcpe⟩ := hcp
  refine ⟨?_, ?_, ?_⟩
  · intro exitOk iface content
    exact ⟨e, he, by unfold Resolvconf.add; rw [hcpe]⟩
  · intro exitOk iface
    exact ⟨e, he, by unfold Resolvconf.del; rw [hcpe]⟩
  · intro pre post c
    simp [runRcCalls]

/-- Witness for C7 at a concrete group-writable mode. -/
theorem C7_permission_check_witness :
    ∃ e, ¬ e = RcError.exitFailure ∧
      Resolvconf.add ⟨0o775, 0⟩ 0 true "eth0" "# x\n" = (Except.error e, []) :=
  (C7_permission_check ⟨0o775, 0⟩ 0 (Or.inl (by decide))).1 true "eth0" "# x\n"

/-- Claim C8: every property name outside Domains/Nameservers/State decodes
to `Other` regardless of the value's shape and never errors; a known name
with a wrong-shaped value fails to decode; and a failed decode drops exactly
that one message from the processed stream, leaving all others intact. -/
theorem C8_decoder (name : String) (value : RawValue) :
    (¬ name = "Domains" → ¬ name = "Nameservers" → ¬ name = "State" →
      ServiceUpdate.read name value = Except.ok ServiceUpdate.Other) ∧
    ((∀ xs, ¬ value = RawValue.vStringList xs) →
      ServiceUpdate.read "Domains" value = Except.error () ∧
      ServiceUpdate.read "Nameservers" value = Except.error ()) ∧
    ((∀ s, ¬ value = RawValue.vString s) →
      ServiceUpdate.read "State" value = Except.error ()) ∧
    (∀ (pre post : List (String × RawValue)),
      ServiceUpdate.read name value = Except.error () →
      processMessages (pre ++ (name, value) :: post) = processMessages (pre ++ post)) := by
  refine ⟨?_, ?_, ?_, ?_⟩
  · intro h1 h2 h3
    unfold ServiceUpdate.read
    simp [h1, h2, h3]
  · intro hv
    cases value with
    | vStringList xs => exact absurd rfl (hv xs)
    | vString s => exact ⟨rfl, rfl⟩
    | vOther => exact ⟨rfl, rfl⟩
  · intro hv
    cases value with
    | vString s => exact absurd rfl (hv s)
    | vStringList xs => rfl
    | vOther => rfl
  · intro pre post herr
    induction pre with
    | nil =>
      simp only [List.nil_append, processMessages, herr]
    | cons p rest ih =>
      obtain ⟨n1, v1⟩ := p
      simp only [List.cons_append, processMessages, List.append_eq]
      cases hr : ServiceUpdate.read n1 v1 with
      | ok u => simp [ih]
      | error a => simp [ih]

/-- Witness for C8 at concrete unknown and malformed messages. -/
theorem C8_decoder_witness :
    ServiceUpdate.read "Foo" RawValue.vOther = Except.ok ServiceUpdate.Other ∧
    ServiceUpdate.read "State" (RawValue.vStringList []) = Except.error () ∧
    processMessages ([] ++ ("State", RawValue.vOther) ::
        [("Domains", RawValue.vStringList ["d"])]) =
      processMessages ([] ++ [("Domains", RawValue.vStringList ["d"])]) :=
  ⟨(C8_decoder "Foo" RawValue.vOther).1 (by decide) (by decide) (by decide),
    ((C8_decoder "State" (RawValue.vStringList [])).2.2.1
      (fun s hh => RawValue.noConfusion hh)),
    ((C8_decoder "State" RawValue.vOther).2.2.2 []
      [("Domains", RawValue.vStringList ["d"])] rfl)⟩
